import Mathlib

/-!
Verification development for the KD-CBS multi-agent kinodynamic planner
(`KD_CBS.cpp`: `KD_CBS::interpolate`, `KD_CBS::validatePlan`, `KD_CBS::solve`,
`constraintRRT::satisfiesConstraints`, `constraintRRT::solve`).

The embedding is shallow: OMPL compound states carrying position and heading
are modelled by rational coordinates together with the cosine and sine of the
heading (the source only ever uses `cos(theta)` and `sin(theta)` of a state),
doubles are modelled by rationals, controls are an abstract type, and the
external collaborators (dynamics propagator, geometry kernel) are parameters.
-/

/-- A planning state as used by the source: position `(x, y)` and heading,
represented by the cosine and sine of `theta` (the code only reads
`cos(theta)` and `sin(theta)`). -/
structure CState where
  x : ℚ
  y : ℚ
  c : ℚ
  s : ℚ
deriving DecidableEq, Repr

instance : Inhabited CState := ⟨⟨0, 0, 1, 0⟩⟩

/-- A boost polygon: the list of its ring vertices, as built by `read_wkt`. -/
abbrev Polygon := List (ℚ × ℚ)

/-- An agent as read from the world: `getName()`, `getShape()[0]` (width) and
`getShape()[1]` (height/length). -/
structure AgentDims where
  name : String
  width : ℚ
  height : ℚ
deriving DecidableEq, Repr

instance : Inhabited AgentDims := ⟨⟨"", 0, 0⟩⟩

/-- The oriented-rectangle footprint built throughout `KD_CBS.cpp` from a
state `(cx, cy, theta)` and the agent dimensions: the WKT ring
`POLYGON((BL, BR, TR, TL, BL))` with the four rotated corners. -/
def footprint (carWidth carHeight : ℚ) (st : CState) : Polygon :=
  let TRx := st.x + carWidth / 2 * st.c - carHeight / 2 * st.s
  let TRy := st.y + carWidth / 2 * st.s + carHeight / 2 * st.c
  let TLx := st.x - carWidth / 2 * st.c - carHeight / 2 * st.s
  let TLy := st.y - carWidth / 2 * st.s + carHeight / 2 * st.c
  let BLx := st.x - carWidth / 2 * st.c + carHeight / 2 * st.s
  let BLy := st.y - carWidth / 2 * st.s - carHeight / 2 * st.c
  let BRx := st.x + carWidth / 2 * st.c + carHeight / 2 * st.s
  let BRy := st.y + carWidth / 2 * st.s - carHeight / 2 * st.c
  [(BLx, BLy), (BRx, BRy), (TRx, TRy), (TLx, TLy), (BLx, BLy)]

/-- An `ompl::control::PathControl`: states, controls and control durations.
Invariantly the source expects one more state than controls. -/
structure PathControl (υ : Type) where
  states : List CState
  controls : List υ
  durations : List ℚ
deriving DecidableEq, Repr

instance {υ : Type} : Inhabited (PathControl υ) := ⟨⟨[], [], []⟩⟩

namespace KDCBS

/-- The states produced by `SpaceInformation::propagate(state, control, steps,
istates, true)`: the `steps` successive images of `st` under the one-step
propagator holding the control fixed. -/
def propagateStates {υ : Type} (prop : CState → υ → CState) (st : CState) (u : υ) :
    ℕ → List CState
  | 0 => []
  | n + 1 => prop st u :: propagateStates prop (prop st u) u n

/-- The body of the `for` loop of `KD_CBS::interpolate`, accumulating the new
state / control / duration vectors segment by segment.  For a segment of
duration `d`, `steps = (int)floor(0.5 + d / res)`; a segment with
`steps <= 1` is copied unchanged, otherwise the segment contributes the
start state plus the `steps - 1` intermediate propagated states (the final
propagated state is popped), `steps` copies of the control, and `steps`
durations equal to `res`. -/
def interpLoop {υ : Type} (prop : CState → υ → CState) (res : ℚ) :
    List CState → List υ → List ℚ → List CState × List υ × List ℚ
  | st :: ss, u :: us, d :: ds =>
    let rest := interpLoop prop res ss us ds
    let steps : ℤ := ⌊(1 : ℚ) / 2 + d / res⌋
    if steps ≤ 1 then
      (st :: rest.1, u :: rest.2.1, d :: rest.2.2)
    else
      (st :: (propagateStates prop st u (steps.toNat - 1) ++ rest.1),
       List.replicate steps.toNat u ++ rest.2.1,
       List.replicate steps.toNat res ++ rest.2.2)
  | _, _, _ => ([], [], [])

/-- `KD_CBS::interpolate`: if the path does not have strictly more states than
controls an error is reported and the path is returned untouched; otherwise
the three vectors are rebuilt segment by segment and the final state
`p.getState(p.getControls().size())` is appended. -/
def interpolate {υ : Type} (prop : CState → υ → CState) (res : ℚ) (p : PathControl υ) :
    PathControl υ :=
  if p.states.length ≤ p.controls.length then p
  else
    let rebuilt := interpLoop prop res p.states p.controls p.durations
    ⟨rebuilt.1 ++ [p.states.getD p.controls.length default], rebuilt.2.1, rebuilt.2.2⟩

/-- The `Conflict` record of `KD_CBS.h` as constructed by
`KD_CBS::validatePlan`: two indices into the list of agents valid at the
detection step, their two polygons, and a single time stamp `k * Δ`. -/
structure Conflict where
  agent1 : ℕ
  agent2 : ℕ
  poly1 : Polygon
  poly2 : Polygon
  time : ℚ
deriving DecidableEq, Repr

/-- `pl` viewed at step `k`: the indices `i` of the agents whose trajectory
still has a state at index `k` (the `validAgentsIdx` vector of
`KD_CBS::validatePlan`). -/
def validAgentsIdx {υ : Type} (pl : List (PathControl υ)) (k : ℕ) : List ℕ :=
  (List.range pl.length).filter (fun i => k < (pl.getD i default).states.length)

/-- The `shapes` vector of `KD_CBS::validatePlan` at step `k`: one footprint
polygon per valid agent, using that agent's width and height from the world
and its state at index `k`. -/
def shapesAt {υ : Type} (world : List AgentDims) (pl : List (PathControl υ)) (k : ℕ) :
    List Polygon :=
  (validAgentsIdx pl k).map (fun i =>
    footprint (world.getD i default).width (world.getD i default).height
      ((pl.getD i default).states.getD k default))

/-- The double loop over `shapes` of `KD_CBS::validatePlan`: the first pair
`(ai, aj)` in row-major order with `ai ≠ aj` whose shapes are not disjoint. -/
def findCollidingPair (disjointP : Polygon → Polygon → Bool) (shapes : List Polygon) :
    Option (ℕ × ℕ) :=
  ((List.range shapes.length).flatMap (fun ai =>
      (List.range shapes.length).map (fun aj => (ai, aj)))).find?
    (fun ab => decide (ab.1 ≠ ab.2) && !(disjointP (shapes.getD ab.1 []) (shapes.getD ab.2 [])))

/-- The polygon built inside the `while (inConflict)` loop of
`KD_CBS::validatePlan` for the pair slot `ai`: the state is read from
`pl[ai]` while the agent dimensions are read from
`w_->getAgents()[validAgentsIdx[ai]]`. -/
def contPoly {υ : Type} (world : List AgentDims) (pl : List (PathControl υ))
    (validIdx : List ℕ) (ai k : ℕ) : Polygon :=
  footprint (world.getD (validIdx.getD ai 0) default).width
    (world.getD (validIdx.getD ai 0) default).height
    ((pl.getD ai default).states.getD k default)

/-- The continuation test of the `while (inConflict)` loop of
`KD_CBS::validatePlan` at step `k`: both `pl[ai]` and `pl[aj]` still have a
state at `k` and their polygons are not disjoint. -/
def contColl {υ : Type} (world : List AgentDims) (disjointP : Polygon → Polygon → Bool)
    (pl : List (PathControl υ)) (validIdx : List ℕ) (ai aj k : ℕ) : Bool :=
  decide (k < (pl.getD ai default).states.length) &&
  decide (k < (pl.getD aj default).states.length) &&
  !(disjointP (contPoly world pl validIdx ai k) (contPoly world pl validIdx aj k))

/-- The conflict record inserted by the `while (inConflict)` loop at step `k`. -/
def contConflict {υ : Type} (world : List AgentDims) (Δ : ℚ)
    (pl : List (PathControl υ)) (validIdx : List ℕ) (ai aj k : ℕ) : Conflict :=
  ⟨ai, aj, contPoly world pl validIdx ai k, contPoly world pl validIdx aj k, k * Δ⟩

/-- The `while (inConflict)` loop of `KD_CBS::validatePlan`, started at step
`k`: while both paths are still live and colliding, record a conflict at the
current step and advance.  The recursion is bounded by explicit fuel; the
loop in the source terminates because `k` eventually leaves both paths. -/
def conflictWindow {υ : Type} (world : List AgentDims)
    (disjointP : Polygon → Polygon → Bool) (Δ : ℚ) (pl : List (PathControl υ))
    (validIdx : List ℕ) (ai aj : ℕ) : ℕ → ℕ → List Conflict
  | 0, _ => []
  | fuel + 1, k =>
    if contColl world disjointP pl validIdx ai aj k then
      contConflict world Δ pl validIdx ai aj k ::
        conflictWindow world disjointP Δ pl validIdx ai aj fuel (k + 1)
    else []

/-- The first conflict record inserted by `KD_CBS::validatePlan` when the
step-`k` scan finds the colliding pair `(ai, aj)`. -/
def initConflict {υ : Type} (world : List AgentDims) (Δ : ℚ)
    (pl : List (PathControl υ)) (k ai aj : ℕ) : Conflict :=
  ⟨ai, aj, (shapesAt world pl k).getD ai [], (shapesAt world pl k).getD aj [], k * Δ⟩

/-- The colliding pair found by the step-`k` scan of `KD_CBS::validatePlan`,
if any. -/
def stepPairAt {υ : Type} (world : List AgentDims)
    (disjointP : Polygon → Polygon → Bool) (pl : List (PathControl υ)) (k : ℕ) :
    Option (ℕ × ℕ) :=
  findCollidingPair disjointP (shapesAt world pl k)

/-- The outer `for (k = 0; k < maxStates; k++)` loop of
`KD_CBS::validatePlan`: scan each step for a colliding pair; at the first
hit, record the initial conflict, run the window loop from `k + 1`, and
return immediately. -/
def validatePlanScan {υ : Type} (world : List AgentDims)
    (disjointP : Polygon → Polygon → Bool) (Δ : ℚ) (pl : List (PathControl υ)) :
    ℕ → ℕ → List Conflict
  | 0, _ => []
  | fuel + 1, k =>
    match stepPairAt world disjointP pl k with
    | some (ai, aj) =>
      initConflict world Δ pl k ai aj ::
        conflictWindow world disjointP Δ pl (validAgentsIdx pl k) ai aj
          ((pl.getD ai default).states.length + (pl.getD aj default).states.length)
          (k + 1)
    | none => validatePlanScan world disjointP Δ pl fuel (k + 1)

/-- The `maxStates` computation of `KD_CBS::validatePlan`: the largest state
count over the joint plan. -/
def maxStatesOf {υ : Type} (pl : List (PathControl υ)) : ℕ :=
  pl.foldl (fun m p => max m p.states.length) 0

/-- The interpolation pass at the top of `KD_CBS::validatePlan`:
`for (i = 0; i < pl.size(); i++) interpolate(pl[i])`. -/
def interpolatedPlan {υ : Type} (prop : CState → υ → CState) (Δ : ℚ)
    (pl : List (PathControl υ)) : List (PathControl υ) :=
  pl.map (interpolate prop Δ)

/-- `KD_CBS::validatePlan`: interpolate every trajectory of the joint plan to
the propagation step `Δ`, then scan steps `0, …, maxStates − 1` for the
first colliding pair and return its window of conflict records (or the empty
set). -/
def validatePlan {υ : Type} (world : List AgentDims)
    (disjointP : Polygon → Polygon → Bool) (prop : CState → υ → CState) (Δ : ℚ)
    (pl : List (PathControl υ)) : List Conflict :=
  let pli := interpolatedPlan prop Δ pl
  validatePlanScan world disjointP Δ pli (maxStatesOf pli) 0

/-- One `SimpleSetup` of the multi-robot problem vector `mmpp_`: its space
information's propagation step size, and the trajectory delivered by
`ss.solve(planningTime_)` followed by `ss.getSolutionPath()` when that call
succeeds (`none` when the low-level solve fails). -/
structure SimpleSetupM (υ : Type) where
  stepSize : ℚ
  llSolution : Option (PathControl υ)
deriving DecidableEq

/-- The observable outcome of `KD_CBS::solve`. -/
inductive KDStatus where
  /-- `base::PlannerStatus::INVALID_START` returned. -/
  | invalidStart
  /-- the `{solved := false, approximate := false}` return. -/
  | noSolution
  /-- the `{solved, approximate := false}` return after a conflict-free plan. -/
  | solutionFound
  /-- `exit(1)` reached in the conflict branch of the main loop. -/
  | processExit
deriving DecidableEq, Repr

/-- What `KD_CBS::solve` returns and does: the planner status, the reported
`(solved, approximate)` pair, how many per-agent low-level solves were
issued, and the solution paths appended to the problem definitions, keyed by
agent name. -/
structure SolveResult (υ : Type) where
  status : KDStatus
  solved : Bool
  approximate : Bool
  lowLevelCalls : ℕ
  appended : List (String × PathControl υ)
deriving DecidableEq

/-- The per-agent result-delivery loop of `KD_CBS::solve`
(`for (j = 0; j < mpath.getStateCount() - 1; j++)`): `j = 0` appends only
`mpath.getState(0)`; each later `j` appends
`(mpath.getState(j), mpath.getControl(j), mpath.getControlDuration(j))`. -/
def deliverPath {υ : Type} [Inhabited υ] (mpath : PathControl υ) : PathControl υ :=
  (List.range (mpath.states.length - 1)).foldl
    (fun acc j =>
      if 0 < j then
        ⟨acc.states ++ [mpath.states.getD j default],
         acc.controls ++ [mpath.controls.getD j default],
         acc.durations ++ [mpath.durations.getD j 0]⟩
      else
        ⟨acc.states ++ [mpath.states.getD j default], acc.controls, acc.durations⟩)
    ⟨[], [], []⟩

/-- `KD_CBS::solve`.  First the propagation step sizes of all agents are
checked against agent 0's; a mismatch aborts with `INVALID_START` before any
low-level solve.  Then every agent is solved once to build the root plan; if
any agent failed, `INVALID_START` is returned.  The main loop pops the root
node: an empty conflict set ends the search with the delivery loop, a
non-empty one reaches `exit(1)`.  A tripped termination condition skips the
loop and reports no solution. -/
def solve {υ : Type} [Inhabited υ] (world : List AgentDims)
    (disjointP : Polygon → Polygon → Bool) (prop : CState → υ → CState)
    (mmpp : List (SimpleSetupM υ)) (ptc : Bool) : SolveResult υ :=
  let minStepSize := (mmpp.headD ⟨0, none⟩).stepSize
  if mmpp.any (fun ss => decide (ss.stepSize ≠ minStepSize)) then
    ⟨.invalidStart, false, false, 0, []⟩
  else
    let rootSol := mmpp.filterMap (fun ss => ss.llSolution)
    if rootSol.length ≠ mmpp.length then
      ⟨.invalidStart, false, false, mmpp.length, []⟩
    else if ptc then
      ⟨.noSolution, false, false, mmpp.length, []⟩
    else if validatePlan world disjointP prop minStepSize rootSol = [] then
      ⟨.solutionFound, !mmpp.isEmpty, false, mmpp.length,
       (List.range mmpp.length).map (fun i =>
         ((world.getD i default).name, deliverPath (rootSol.getD i default)))⟩
    else
      ⟨.processExit, false, false, mmpp.length, []⟩

end KDCBS

namespace CRRT

/-- A `Motion` of `constraintRRT`: its state, the control applied to reach
it, the number of control steps of that control, and the parent motion
(`Motion.root` models a motion with null parent). -/
inductive Motion (υ : Type) where
  | root (state : CState) (control : υ)
  | node (state : CState) (control : υ) (steps : ℕ) (parent : Motion υ)
deriving DecidableEq

/-- The state carried by a motion. -/
def Motion.state {υ : Type} : Motion υ → CState
  | .root st _ => st
  | .node st _ _ _ => st

/-- The `totalSteps` loop of `constraintRRT::satisfiesConstraints`: sum the
`steps` fields along the chain while the current motion has a parent (the
root's own `steps` is never added). -/
def totalSteps {υ : Type} : Motion υ → ℕ
  | .root _ _ => 0
  | .node _ _ steps parent => steps + totalSteps parent

/-- A `Constraint`: the time range returned by `getTimeRange()` and the
polygon set returned by `getPolygons()`. -/
structure Constraint where
  timeLo : ℚ
  timeHi : ℚ
  polygons : List Polygon
deriving DecidableEq

/-- `constraintRRT::satisfiesConstraints`: with `currTime = totalSteps * Δ`,
every constraint whose time range contains `currTime` must have all its
polygons disjoint from the footprint of the motion's state; a single
non-disjoint polygon returns `false`. -/
def satisfiesConstraints {υ : Type} (a : AgentDims)
    (disjointP : Polygon → Polygon → Bool) (Δ : ℚ) (constraints : List Constraint)
    (n : Motion υ) : Bool :=
  let currTime := (totalSteps n : ℚ) * Δ
  constraints.all (fun c =>
    if c.timeLo ≤ currTime ∧ currTime ≤ c.timeHi then
      (c.polygons.all (fun p => disjointP (footprint a.width a.height n.state) p))
    else true)

/-- The chain of motions added by the `addIntermediateStates_` branch of
`constraintRRT::solve`: one motion per propagated substate with `steps = 1`,
each parented on the previous one, stopping right after a substate satisfies
the goal. -/
def buildChain {υ : Type} (goalSat : CState → Bool) (last : Motion υ) (rctrl : υ) :
    List CState → List (Motion υ)
  | [] => []
  | st :: rest =>
    let m : Motion υ := .node st rctrl 1 last
    if goalSat st then [m] else m :: buildChain goalSat m rctrl rest

/-- The tree-extension decision of one iteration of the main loop of
`constraintRRT::solve`, given the sampled control duration `cd`, the
propagated substates `pstates` (intermediate-states branch) and the reached
state `rstate` (plain branch): the list of motions added to the tree.  In
the `addIntermediateStates_` branch every substate is added (no constraint
check); otherwise a single motion is added if `cd` meets the minimum control
duration and — when the constraint list is non-empty — the motion satisfies
the constraints. -/
def solveExtend {υ : Type} (addIntermediateStates : Bool) (minControlDuration : ℕ)
    (a : AgentDims) (disjointP : Polygon → Polygon → Bool) (Δ : ℚ)
    (constraints : List Constraint) (goalSat : CState → Bool) (nmotion : Motion υ)
    (rctrl : υ) (cd : ℕ) (pstates : List CState) (rstate : CState) :
    List (Motion υ) :=
  if addIntermediateStates then
    if minControlDuration ≤ cd then
      buildChain goalSat nmotion rctrl pstates
    else []
  else
    if minControlDuration ≤ cd then
      let motion : Motion υ := .node rstate rctrl cd nmotion
      if constraints ≠ [] then
        if satisfiesConstraints a disjointP Δ constraints motion then [motion] else []
      else [motion]
    else []

end CRRT

namespace KDCBS

theorem contColl_false_of_len_le {υ : Type} (world : List AgentDims)
    (disjointP : Polygon → Polygon → Bool) (pl : List (PathControl υ))
    (validIdx : List ℕ) (ai aj k : ℕ)
    (h : (pl.getD ai default).states.length ≤ k) :
    contColl world disjointP pl validIdx ai aj k = false := by
  have hd : decide (k < (pl.getD ai default).states.length) = false :=
    decide_eq_false (Nat.not_lt.2 h)
  simp only [contColl, hd, Bool.false_and]

theorem conflictWindow_spec {υ : Type} (world : List AgentDims)
    (disjointP : Polygon → Polygon → Bool) (Δ : ℚ) (pl : List (PathControl υ))
    (validIdx : List ℕ) (ai aj : ℕ) :
    ∀ (fuel k : ℕ), (pl.getD ai default).states.length ≤ fuel + k →
      ∃ m : ℕ,
        (∀ i, i < m → contColl world disjointP pl validIdx ai aj (k + i) = true) ∧
        contColl world disjointP pl validIdx ai aj (k + m) = false ∧
        conflictWindow world disjointP Δ pl validIdx ai aj fuel k =
          (List.range m).map (fun i => contConflict world Δ pl validIdx ai aj (k + i)) := by
  intro fuel
  induction fuel with
  | zero =>
    intro k hk
    refine ⟨0, by omega, ?_, by simp [conflictWindow]⟩
    exact contColl_false_of_len_le world disjointP pl validIdx ai aj k (by omega)
  | succ fuel ih =>
    intro k hk
    by_cases h : contColl world disjointP pl validIdx ai aj k = true
    · obtain ⟨m, h1, h2, h3⟩ := ih (k + 1) (by omega)
      refine ⟨m + 1, ?_, ?_, ?_⟩
      · intro i hi
        cases i with
        | zero => simpa using h
        | succ i =>
          have := h1 i (by omega)
          simpa [Nat.add_assoc, Nat.add_comm 1 i] using this
      · have : k + (m + 1) = k + 1 + m := by omega
        rw [this]; exact h2
      · rw [conflictWindow, if_pos h, h3, List.range_succ_eq_map, List.map_cons,
          List.map_map]
        congr 1
        refine List.map_congr_left fun i hi => ?_
        simp only [Function.comp_apply]
        congr 1
        omega
    · refine ⟨0, by omega, by simpa using h, ?_⟩
      rw [conflictWindow, if_neg h]
      simp

theorem validatePlanScan_of_none {υ : Type} (world : List AgentDims)
    (disjointP : Polygon → Polygon → Bool) (Δ : ℚ) (pl : List (PathControl υ))
    (h : ∀ j, stepPairAt world disjointP pl j = none) :
    ∀ (fuel k : ℕ), validatePlanScan world disjointP Δ pl fuel k = [] := by
  intro fuel
  induction fuel with
  | zero => intro k; rfl
  | succ fuel ih =>
    intro k
    rw [validatePlanScan, h k]
    exact ih (k + 1)

theorem validatePlanScan_of_found {υ : Type} (world : List AgentDims)
    (disjointP : Polygon → Polygon → Bool) (Δ : ℚ) (pl : List (PathControl υ))
    (ai aj : ℕ) :
    ∀ (d fuel k : ℕ), (∀ j, j < d → stepPairAt world disjointP pl (k + j) = none) →
      stepPairAt world disjointP pl (k + d) = some (ai, aj) → d < fuel →
      validatePlanScan world disjointP Δ pl fuel k =
        initConflict world Δ pl (k + d) ai aj ::
          conflictWindow world disjointP Δ pl (validAgentsIdx pl (k + d)) ai aj
            ((pl.getD ai default).states.length + (pl.getD aj default).states.length)
            (k + d + 1) := by
  intro d
  induction d with
  | zero =>
    intro fuel k hnone hsome hfuel
    match fuel, hfuel with
    | fuel + 1, _ =>
      rw [validatePlanScan]
      simp only [Nat.add_zero] at hsome ⊢
      rw [hsome]
  | succ d ih =>
    intro fuel k hnone hsome hfuel
    match fuel, hfuel with
    | fuel + 1, hfuel =>
      rw [validatePlanScan]
      have h0 : stepPairAt world disjointP pl k = none := by
        simpa using hnone 0 (by omega)
      rw [h0]
      have := ih fuel (k + 1)
        (fun j hj => by
          have := hnone (j + 1) (by omega)
          simpa [Nat.add_assoc, Nat.add_comm 1 j] using this)
        (by
          have h : k + 1 + d = k + (d + 1) := by omega
          rw [h]; exact hsome)
        (by omega)
      simpa [Nat.add_assoc, Nat.add_comm 1 d] using this

end KDCBS

namespace KDCBS

theorem le_foldl_maxStates {υ : Type} :
    ∀ (l : List (PathControl υ)) (b : ℕ),
      b ≤ l.foldl (fun m p => max m p.states.length) b := by
  intro l
  induction l with
  | nil => intro b; exact Nat.le_refl b
  | cons a l ih =>
    intro b
    calc b ≤ max b a.states.length := Nat.le_max_left _ _
    _ ≤ (a :: l).foldl (fun m p => max m p.states.length) b := ih _

theorem mem_le_foldl_maxStates {υ : Type} :
    ∀ (l : List (PathControl υ)) (p : PathControl υ), p ∈ l →
      ∀ (b : ℕ), p.states.length ≤ l.foldl (fun m p => max m p.states.length) b := by
  intro l
  induction l with
  | nil => intro p hp; cases hp
  | cons a l ih =>
    intro p hp b
    rcases List.mem_cons.1 hp with rfl | hp
    · calc p.states.length ≤ max b p.states.length := Nat.le_max_right _ _
      _ ≤ _ := le_foldl_maxStates l _
    · exact ih p hp _

theorem length_le_maxStatesOf {υ : Type} (pl : List (PathControl υ)) (i : ℕ)
    (hi : i < pl.length) : (pl.getD i default).states.length ≤ maxStatesOf pl := by
  have hmem : pl.getD i default ∈ pl := by
    rw [List.getD_eq_getElem?_getD, List.getElem?_eq_getElem hi]
    exact List.getElem_mem hi
  exact mem_le_foldl_maxStates pl _ hmem 0

theorem lt_maxStatesOf_of_stepPair {υ : Type} (world : List AgentDims)
    (disjointP : Polygon → Polygon → Bool) (pl : List (PathControl υ)) (k ai aj : ℕ)
    (h : stepPairAt world disjointP pl k = some (ai, aj)) : k < maxStatesOf pl := by
  by_contra hk
  have hempty : validAgentsIdx pl k = [] := by
    rw [validAgentsIdx, List.filter_eq_nil_iff]
    intro i hi
    have := length_le_maxStatesOf pl i (List.mem_range.1 hi)
    simpa using Nat.not_lt.2 (le_trans this (Nat.not_lt.1 hk))
  rw [stepPairAt, shapesAt, hempty] at h
  simp [findCollidingPair] at h

end KDCBS

namespace Geo

/-- Modelled from the spec: the implementation of the geometry kernel
(`boost::geometry`) is an external collaborator and not part of this
repository.  A WKT polygon ring denotes the closed convex region spanned by
its vertices; its point set is the convex hull of the vertices, read in the
real plane. -/
def polySet (p : Polygon) : Set (ℝ × ℝ) :=
  convexHull ℝ (Set.image (fun q : ℚ × ℚ => ((q.1 : ℝ), (q.2 : ℝ))) {q | q ∈ p})

/-- Modelled from the spec: `boost::geometry::disjoint(a, b)` decides
topological disjointness of the two closed polygon regions — true exactly
when their point sets do not meet (an edge or corner touch is not
disjoint). -/
def bgDisjoint (a b : Polygon) : Prop := polySet a ∩ polySet b = ∅

/-- The collision test applied by both `KD_CBS::validatePlan` and
`constraintRRT::satisfiesConstraints`: `! boost::geometry::disjoint(a, b)`. -/
def collides (a b : Polygon) : Prop := ¬ bgDisjoint a b

end Geo

namespace KDCBS

theorem length_propagateStates {υ : Type} (prop : CState → υ → CState) (u : υ) :
    ∀ (n : ℕ) (st : CState), (propagateStates prop st u n).length = n := by
  intro n
  induction n with
  | zero => intro st; rfl
  | succ n ih => intro st; simp [propagateStates, ih]

theorem length_le_length_flatten {α : Type} :
    ∀ (L : List (List α)), (∀ b ∈ L, b ≠ []) → L.length ≤ L.flatten.length := by
  intro L
  induction L with
  | nil => intro _; exact Nat.le_refl 0
  | cons b L ih =>
    intro h
    have hb : b ≠ [] := h b (List.mem_cons_self b L)
    have hlen : 1 ≤ b.length := by
      cases b with
      | nil => exact absurd rfl hb
      | cons x xs => simp
    simp only [List.flatten_cons, List.length_cons, List.length_append]
    have := ih (fun c hc => h c (List.mem_cons_of_mem b hc))
    omega

theorem interpLoop_eq {υ : Type} (prop : CState → υ → CState) (res : ℚ) :
    ∀ (ss : List CState) (us : List υ) (ds : List ℚ),
      interpLoop prop res ss us ds =
        (((ss.zip (us.zip ds)).map (fun sud =>
            if (⌊(1 : ℚ) / 2 + sud.2.2 / res⌋ : ℤ) ≤ 1 then [sud.1]
            else sud.1 :: propagateStates prop sud.1 sud.2.1
              ((⌊(1 : ℚ) / 2 + sud.2.2 / res⌋ : ℤ).toNat - 1))).flatten,
         ((ss.zip (us.zip ds)).map (fun sud =>
            if (⌊(1 : ℚ) / 2 + sud.2.2 / res⌋ : ℤ) ≤ 1 then [sud.2.1]
            else List.replicate (⌊(1 : ℚ) / 2 + sud.2.2 / res⌋ : ℤ).toNat sud.2.1)).flatten,
         ((ss.zip (us.zip ds)).map (fun sud =>
            if (⌊(1 : ℚ) / 2 + sud.2.2 / res⌋ : ℤ) ≤ 1 then [sud.2.2]
            else List.replicate (⌊(1 : ℚ) / 2 + sud.2.2 / res⌋ : ℤ).toNat res)).flatten) := by
  intro ss
  induction ss with
  | nil =>
    intro us ds
    simp [interpLoop]
  | cons s ss ih =>
    intro us ds
    cases us with
    | nil => simp [interpLoop]
    | cons u us =>
      cases ds with
      | nil => simp [interpLoop]
      | cons d ds =>
        simp only [interpLoop]
        rw [ih us ds]
        by_cases hs : (⌊(1 : ℚ) / 2 + d / res⌋ : ℤ) ≤ 1
        · simp only [List.zip_cons_cons, List.map_cons, List.flatten_cons, if_pos hs,
            List.singleton_append]
        · simp only [List.zip_cons_cons, List.map_cons, List.flatten_cons, if_neg hs,
            List.cons_append]

end KDCBS

/-! ### Concrete instantiations shared by the claim witnesses -/

/-- A concrete geometry kernel for closed runs: two polygons are disjoint
exactly when they are not the same vertex list (enough to drive the control
flow on the concrete plans below, where colliding agents share a footprint). -/
def polyNe : Polygon → Polygon → Bool := fun p q => decide (p ≠ q)

/-- A concrete propagator: the state is unchanged by propagation. -/
def propId : CState → ℕ → CState := fun st _ => st

/-! ### Claims -/

/-- Claim C10: for every path whose state count is not strictly greater than
its control count, `KD_CBS::interpolate` reports an error and performs no
mutation: the returned path has exactly the states, controls and control
durations it started with. -/
theorem claim_C10 {υ : Type} (prop : CState → υ → CState) (res : ℚ)
    (p : PathControl υ) (h : p.states.length ≤ p.controls.length) :
    KDCBS.interpolate prop res p = p := by
  simp [KDCBS.interpolate, h]

/-- Witness for C10: a concrete path with as many states as controls is
returned untouched. -/
theorem claim_C10_witness :
    (⟨[⟨0, 0, 1, 0⟩], [3], [1]⟩ : PathControl ℕ).states.length ≤
      (⟨[⟨0, 0, 1, 0⟩], [3], [1]⟩ : PathControl ℕ).controls.length ∧
    KDCBS.interpolate propId 1 (⟨[⟨0, 0, 1, 0⟩], [3], [1]⟩ : PathControl ℕ) =
      ⟨[⟨0, 0, 1, 0⟩], [3], [1]⟩ :=
  ⟨Nat.le_refl 1, claim_C10 propId 1 _ (Nat.le_refl 1)⟩

/-- Claim C5: `constraintRRT::satisfiesConstraints` returns `true` exactly
when, for every constraint whose time window contains the motion's absolute
time `Δ · Σ (ancestor steps)`, the motion's footprint is disjoint from every
polygon of the constraint; a single overlap yields `false`. -/
theorem claim_C5 {υ : Type} (a : AgentDims) (disjointP : Polygon → Polygon → Bool)
    (Δ : ℚ) (constraints : List CRRT.Constraint) (n : CRRT.Motion υ) :
    CRRT.satisfiesConstraints a disjointP Δ constraints n = true ↔
      ∀ c ∈ constraints,
        (c.timeLo ≤ (CRRT.totalSteps n : ℚ) * Δ ∧
          (CRRT.totalSteps n : ℚ) * Δ ≤ c.timeHi) →
        ∀ p ∈ c.polygons,
          disjointP (footprint a.width a.height n.state) p = true := by
  simp only [CRRT.satisfiesConstraints, List.all_eq_true]
  constructor
  · intro H c hc hw p hp
    have hcc := H c hc
    rw [if_pos hw] at hcc
    exact List.all_eq_true.1 hcc p hp
  · intro H c hc
    by_cases hw : c.timeLo ≤ (CRRT.totalSteps n : ℚ) * Δ ∧
        (CRRT.totalSteps n : ℚ) * Δ ≤ c.timeHi
    · rw [if_pos hw]
      exact List.all_eq_true.2 (H c hc hw)
    · rw [if_neg hw]

/-- Witness for C5: the equivalence instantiated at a concrete agent,
kernel, constraint list and motion. -/
theorem claim_C5_witness :
    CRRT.satisfiesConstraints ⟨"a", 1, 1⟩ polyNe 1
        [⟨0, 100, [footprint 1 1 ⟨5, 5, 1, 0⟩]⟩]
        (CRRT.Motion.node ⟨1, 0, 1, 0⟩ 0 1 (CRRT.Motion.root ⟨0, 0, 1, 0⟩ 0)) = true ↔
      ∀ c ∈ [(⟨0, 100, [footprint 1 1 ⟨5, 5, 1, 0⟩]⟩ : CRRT.Constraint)],
        (c.timeLo ≤ (CRRT.totalSteps (CRRT.Motion.node ⟨1, 0, 1, 0⟩ 0 1
            (CRRT.Motion.root ⟨0, 0, 1, 0⟩ (0 : ℕ))) : ℚ) * 1 ∧
          (CRRT.totalSteps (CRRT.Motion.node ⟨1, 0, 1, 0⟩ 0 1
            (CRRT.Motion.root ⟨0, 0, 1, 0⟩ 0)) : ℚ) * 1 ≤ c.timeHi) →
        ∀ p ∈ c.polygons,
          polyNe (footprint (⟨"a", 1, 1⟩ : AgentDims).width
            (⟨"a", 1, 1⟩ : AgentDims).height
            (CRRT.Motion.node ⟨1, 0, 1, 0⟩ 0 1
              (CRRT.Motion.root ⟨0, 0, 1, 0⟩ 0)).state) p = true :=
  claim_C5 ⟨"a", 1, 1⟩ polyNe 1 _ _

/-- Claim C8: if any two agents advertise different propagation step sizes,
`KD_CBS::solve` returns `INVALID_START` at once — zero low-level solves are
issued and no problem definition receives a path. -/
theorem claim_C8 {υ : Type} [Inhabited υ] (world : List AgentDims)
    (disjointP : Polygon → Polygon → Bool) (prop : CState → υ → CState)
    (mmpp : List (KDCBS.SimpleSetupM υ)) (ptc : Bool) (i j : ℕ)
    (hi : i < mmpp.length) (hj : j < mmpp.length)
    (hne : (mmpp.getD i ⟨0, none⟩).stepSize ≠ (mmpp.getD j ⟨0, none⟩).stepSize) :
    KDCBS.solve world disjointP prop mmpp ptc =
      ⟨KDCBS.KDStatus.invalidStart, false, false, 0, []⟩ := by
  have hmem_i : mmpp.getD i ⟨0, none⟩ ∈ mmpp := by
    rw [List.getD_eq_getElem?_getD, List.getElem?_eq_getElem hi]
    exact List.getElem_mem hi
  have hmem_j : mmpp.getD j ⟨0, none⟩ ∈ mmpp := by
    rw [List.getD_eq_getElem?_getD, List.getElem?_eq_getElem hj]
    exact List.getElem_mem hj
  have hex : ∃ ss ∈ mmpp, ss.stepSize ≠ (mmpp.headD ⟨0, none⟩).stepSize := by
    by_cases h : (mmpp.getD i ⟨0, none⟩).stepSize = (mmpp.headD ⟨0, none⟩).stepSize
    · exact ⟨_, hmem_j, fun hj2 => hne (h.trans hj2.symm)⟩
    · exact ⟨_, hmem_i, h⟩
  have hany : mmpp.any
      (fun ss => decide (ss.stepSize ≠ (mmpp.headD ⟨0, none⟩).stepSize)) = true := by
    obtain ⟨ss, hss, hne2⟩ := hex
    exact List.any_eq_true.2 ⟨ss, hss, decide_eq_true hne2⟩
  simp only [KDCBS.solve]
  rw [if_pos hany]

/-- Witness for C8: two agents with step sizes 1/10 and 1/5. -/
theorem claim_C8_witness :
    (0 : ℕ) < 2 ∧ (1 : ℕ) < 2 ∧
    (([⟨1/10, none⟩, ⟨1/5, none⟩] : List (KDCBS.SimpleSetupM ℕ)).getD 0
        ⟨0, none⟩).stepSize ≠
      (([⟨1/10, none⟩, ⟨1/5, none⟩] : List (KDCBS.SimpleSetupM ℕ)).getD 1
        ⟨0, none⟩).stepSize ∧
    KDCBS.solve [] polyNe propId
        ([⟨1/10, none⟩, ⟨1/5, none⟩] : List (KDCBS.SimpleSetupM ℕ)) false =
      ⟨KDCBS.KDStatus.invalidStart, false, false, 0, []⟩ :=
  ⟨by norm_num, by norm_num, by norm_num,
   claim_C8 [] polyNe propId _ false 0 1 (by norm_num) (by norm_num) (by norm_num)⟩

/-- The world, trajectory and setup vector of the C1 run: two unit-square
agents whose one-state trajectories sit on the same spot. -/
def c1World : List AgentDims := [⟨"a", 1, 1⟩, ⟨"b", 1, 1⟩]

/-- A one-state trajectory at the origin. -/
def c1Path : PathControl ℕ := ⟨[⟨0, 0, 1, 0⟩], [], []⟩

/-- Two agents with matching step sizes whose initial solve returns the
overlapping one-state trajectories. -/
def c1Mmpp : List (KDCBS.SimpleSetupM ℕ) := [⟨1, some c1Path⟩, ⟨1, some c1Path⟩]

/-- Claim C1 (code bug): when the popped plan has a conflict, the main loop
of `KD_CBS::solve` reaches `exit(1)` instead of spawning the two children of
§4.5 — no node is created, nothing is delivered, the process terminates. -/
theorem claim_C1 :
    KDCBS.validatePlan c1World polyNe propId 1 [c1Path, c1Path] ≠ [] ∧
    KDCBS.solve c1World polyNe propId c1Mmpp false =
      ⟨KDCBS.KDStatus.processExit, false, false, 2, []⟩ := by
  constructor
  · norm_num [KDCBS.validatePlan, KDCBS.interpolatedPlan, KDCBS.validatePlanScan,
      KDCBS.maxStatesOf, KDCBS.stepPairAt, KDCBS.findCollidingPair, KDCBS.shapesAt,
      KDCBS.validAgentsIdx, KDCBS.initConflict, KDCBS.conflictWindow, KDCBS.contColl,
      KDCBS.contPoly, KDCBS.contConflict, KDCBS.interpolate, KDCBS.interpLoop,
      KDCBS.propagateStates, footprint, polyNe, propId, c1World, c1Path,
      List.range_succ, List.filter, List.flatMap, List.find?]
  · norm_num [KDCBS.solve, KDCBS.validatePlan, KDCBS.interpolatedPlan,
      KDCBS.validatePlanScan, KDCBS.maxStatesOf, KDCBS.stepPairAt,
      KDCBS.findCollidingPair, KDCBS.shapesAt, KDCBS.validAgentsIdx,
      KDCBS.initConflict, KDCBS.conflictWindow, KDCBS.contColl, KDCBS.contPoly,
      KDCBS.contConflict, KDCBS.interpolate, KDCBS.interpLoop, KDCBS.propagateStates,
      footprint, polyNe, propId, c1World, c1Path, c1Mmpp,
      List.range_succ, List.filter, List.flatMap, List.find?, List.filterMap_cons]

/-- The three-agent world of the C3 run. -/
def c3World : List AgentDims := [⟨"a", 1, 1⟩, ⟨"b", 1, 1⟩, ⟨"c", 1, 1⟩]

/-- A joint plan where agent 0's trajectory has already ended at step 1 and
agents 1 and 2 overlap at step 1 (both at `x = 20`). -/
def c3Plan : List (PathControl ℕ) :=
  [⟨[⟨0, 0, 1, 0⟩], [], []⟩,
   ⟨[⟨10, 0, 1, 0⟩, ⟨20, 0, 1, 0⟩], [0], [1]⟩,
   ⟨[⟨30, 0, 1, 0⟩, ⟨20, 0, 1, 0⟩], [0], [1]⟩]

/-- Claim C3 (code bug): the agents colliding at step 1 occupy plan slots 1
and 2 (agent 0's trajectory has ended), yet the conflict record carries the
indices `(0, 1)` — positions in the compacted list of still-live agents, not
slot indices into the joint plan. -/
theorem claim_C3 :
    KDCBS.validAgentsIdx (KDCBS.interpolatedPlan propId 1 c3Plan) 1 = [1, 2] ∧
    (KDCBS.validatePlan c3World polyNe propId 1 c3Plan).map
      (fun c => (c.agent1, c.agent2)) = [(0, 1)] := by
  constructor
  · norm_num [KDCBS.validAgentsIdx, KDCBS.interpolatedPlan, KDCBS.interpolate,
      KDCBS.interpLoop, c3Plan, List.range_succ, List.filter]
  · norm_num [KDCBS.validatePlan, KDCBS.interpolatedPlan, KDCBS.validatePlanScan,
      KDCBS.maxStatesOf, KDCBS.stepPairAt, KDCBS.findCollidingPair, KDCBS.shapesAt,
      KDCBS.validAgentsIdx, KDCBS.initConflict, KDCBS.conflictWindow, KDCBS.contColl,
      KDCBS.contPoly, KDCBS.contConflict, KDCBS.interpolate, KDCBS.interpLoop,
      KDCBS.propagateStates, footprint, polyNe, propId, c3World, c3Plan,
      List.range_succ, List.filter, List.flatMap, List.find?]

/-- The agent of the C4 run. -/
def c4Agent : AgentDims := ⟨"a", 1, 1⟩

/-- A constraint whose window `[0, 100]` covers the whole run and whose
polygon is exactly the footprint the first substate will occupy. -/
def c4Con : CRRT.Constraint := ⟨0, 100, [footprint 1 1 ⟨1, 0, 1, 0⟩]⟩

/-- The tree root of the C4 run. -/
def c4Root : CRRT.Motion ℕ := CRRT.Motion.root ⟨0, 0, 1, 0⟩ 0

/-- Claim C4 (code bug): with the add-intermediate-states flag set and a
non-empty constraint list, `constraintRRT::solve` adds every propagated
substate to the tree with no constraint check at all: here both substates
are added although the first one violates the constraint
(`satisfiesConstraints` would reject it). -/
theorem claim_C4 :
    CRRT.solveExtend true 1 c4Agent polyNe 1 [c4Con] (fun _ => false) c4Root 0 2
        [⟨1, 0, 1, 0⟩, ⟨2, 0, 1, 0⟩] ⟨2, 0, 1, 0⟩ =
      [CRRT.Motion.node ⟨1, 0, 1, 0⟩ 0 1 c4Root,
       CRRT.Motion.node ⟨2, 0, 1, 0⟩ 0 1 (CRRT.Motion.node ⟨1, 0, 1, 0⟩ 0 1 c4Root)] ∧
    CRRT.satisfiesConstraints c4Agent polyNe 1 [c4Con]
        (CRRT.Motion.node ⟨1, 0, 1, 0⟩ 0 1 c4Root) = false := by
  constructor
  · norm_num [CRRT.solveExtend, CRRT.buildChain]
  · norm_num [CRRT.satisfiesConstraints, CRRT.totalSteps, CRRT.Motion.state,
      c4Con, c4Agent, c4Root, footprint, polyNe]

/-- The single-agent world of the C7 run. -/
def c7World : List AgentDims := [⟨"agent0", 1, 1⟩]

/-- A three-state solution trajectory (all durations equal to the step). -/
def c7Path : PathControl ℕ := ⟨[⟨0, 0, 1, 0⟩, ⟨3, 0, 1, 0⟩, ⟨6, 0, 1, 0⟩], [5, 7], [1, 1]⟩

/-- Claim C7 (code bug): on a conflict-free plan the call reports
`(solved = true, approximate = false)`, but the path appended under the
agent's name holds only states `s0, s1` and control `u1` — the final state
`s2` and the first control `u0` of the three-state solution trajectory are
dropped and the surviving control is paired with the wrong state. -/
theorem claim_C7 :
    KDCBS.solve c7World polyNe propId [⟨1, some c7Path⟩] false =
      ⟨KDCBS.KDStatus.solutionFound, true, false, 1,
       [("agent0", ⟨[⟨0, 0, 1, 0⟩, ⟨3, 0, 1, 0⟩], [7], [1]⟩)]⟩ ∧
    c7Path.states.length = 3 ∧ c7Path.controls.length = 2 := by
  refine ⟨?_, rfl, rfl⟩
  norm_num [KDCBS.solve, KDCBS.validatePlan, KDCBS.interpolatedPlan,
    KDCBS.validatePlanScan, KDCBS.maxStatesOf, KDCBS.stepPairAt,
    KDCBS.findCollidingPair, KDCBS.shapesAt, KDCBS.validAgentsIdx,
    KDCBS.initConflict, KDCBS.conflictWindow, KDCBS.contColl, KDCBS.contPoly,
    KDCBS.contConflict, KDCBS.interpolate, KDCBS.interpLoop, KDCBS.propagateStates,
    KDCBS.deliverPath, footprint, polyNe, propId, c7World, c7Path,
    List.range_succ, List.filter, List.flatMap, List.find?, List.filterMap_cons]

/-- The two-agent world of the C2 run. -/
def c2World : List AgentDims := [⟨"a", 1, 1⟩, ⟨"b", 1, 1⟩]

/-- A joint plan whose two agents overlap at steps 0 and 1 and separate at
step 2. -/
def c2Plan : List (PathControl ℕ) :=
  [⟨[⟨0, 0, 1, 0⟩, ⟨1, 0, 1, 0⟩, ⟨2, 0, 1, 0⟩], [0, 0], [1, 1]⟩,
   ⟨[⟨0, 0, 1, 0⟩, ⟨1, 0, 1, 0⟩, ⟨9, 0, 1, 0⟩], [0, 0], [1, 1]⟩]

/-- Counterexample to Claim C2 as stated: on a plan whose first conflict
window spans two steps, `KD_CBS::validatePlan` returns neither the empty set
nor a single record — it returns one record per colliding step (two here). -/
theorem claim_C2_counterexample :
    ¬ (KDCBS.validatePlan c2World polyNe propId 1 c2Plan = [] ∨
       ∃ c, KDCBS.validatePlan c2World polyNe propId 1 c2Plan = [c]) := by
  have hlen : (KDCBS.validatePlan c2World polyNe propId 1 c2Plan).length = 2 := by
    norm_num [KDCBS.validatePlan, KDCBS.interpolatedPlan, KDCBS.validatePlanScan,
      KDCBS.maxStatesOf, KDCBS.stepPairAt, KDCBS.findCollidingPair, KDCBS.shapesAt,
      KDCBS.validAgentsIdx, KDCBS.initConflict, KDCBS.conflictWindow, KDCBS.contColl,
      KDCBS.contPoly, KDCBS.contConflict, KDCBS.interpolate, KDCBS.interpLoop,
      KDCBS.propagateStates, footprint, polyNe, propId, c2World, c2Plan,
      List.range_succ, List.filter, List.flatMap, List.find?]
  rintro (h | ⟨c, h⟩) <;> rw [h] at hlen <;> simp at hlen

/-- Claim C2 (amended): for every joint plan, `KD_CBS::validatePlan` returns
the empty set when no step has a colliding pair; and when step `k` is the
first with a colliding pair `(ai, aj)`, it returns immediately with exactly
one conflict record per step of the maximal contiguous window — the record
of step `k` followed by one record per later consecutive step at which the
pair is still live and colliding (each record stamped with its own step
time), the window being closed at the first step that fails the
continuation test. -/
theorem claim_C2 {υ : Type} (world : List AgentDims)
    (disjointP : Polygon → Polygon → Bool) (prop : CState → υ → CState) (Δ : ℚ)
    (pl : List (PathControl υ)) :
    ((∀ j, KDCBS.stepPairAt world disjointP (KDCBS.interpolatedPlan prop Δ pl) j =
        none) →
      KDCBS.validatePlan world disjointP prop Δ pl = []) ∧
    (∀ k ai aj,
      (∀ j, j < k →
        KDCBS.stepPairAt world disjointP (KDCBS.interpolatedPlan prop Δ pl) j = none) →
      KDCBS.stepPairAt world disjointP (KDCBS.interpolatedPlan prop Δ pl) k =
        some (ai, aj) →
      ∃ m,
        (∀ i, i < m →
          KDCBS.contColl world disjointP (KDCBS.interpolatedPlan prop Δ pl)
            (KDCBS.validAgentsIdx (KDCBS.interpolatedPlan prop Δ pl) k) ai aj
            (k + 1 + i) = true) ∧
        KDCBS.contColl world disjointP (KDCBS.interpolatedPlan prop Δ pl)
          (KDCBS.validAgentsIdx (KDCBS.interpolatedPlan prop Δ pl) k) ai aj
          (k + 1 + m) = false ∧
        KDCBS.validatePlan world disjointP prop Δ pl =
          KDCBS.initConflict world Δ (KDCBS.interpolatedPlan prop Δ pl) k ai aj ::
            (List.range m).map (fun i =>
              KDCBS.contConflict world Δ (KDCBS.interpolatedPlan prop Δ pl)
                (KDCBS.validAgentsIdx (KDCBS.interpolatedPlan prop Δ pl) k) ai aj
                (k + 1 + i))) := by
  constructor
  · intro h
    simp only [KDCBS.validatePlan]
    exact KDCBS.validatePlanScan_of_none world disjointP Δ _ h _ 0
  · intro k ai aj hnone hsome
    have hk : k < KDCBS.maxStatesOf (KDCBS.interpolatedPlan prop Δ pl) :=
      KDCBS.lt_maxStatesOf_of_stepPair world disjointP _ k ai aj hsome
    have hscan := KDCBS.validatePlanScan_of_found world disjointP Δ
      (KDCBS.interpolatedPlan prop Δ pl) ai aj k
      (KDCBS.maxStatesOf (KDCBS.interpolatedPlan prop Δ pl)) 0
      (fun j hj => by simpa using hnone j hj)
      (by simpa using hsome) hk
    simp only [Nat.zero_add] at hscan
    obtain ⟨m, h1, h2, h3⟩ := KDCBS.conflictWindow_spec world disjointP Δ
      (KDCBS.interpolatedPlan prop Δ pl)
      (KDCBS.validAgentsIdx (KDCBS.interpolatedPlan prop Δ pl) k) ai aj
      (((KDCBS.interpolatedPlan prop Δ pl).getD ai default).states.length +
        ((KDCBS.interpolatedPlan prop Δ pl).getD aj default).states.length)
      (k + 1) (by omega)
    refine ⟨m, h1, h2, ?_⟩
    simp only [KDCBS.validatePlan]
    rw [hscan, h3]

/-- Witness for C2: on the concrete plan `c2Plan` the first colliding pair is
found at step 0 with no earlier collision, and the amended statement applies
to produce the window. -/
theorem claim_C2_witness :
    (∀ j, j < 0 →
      KDCBS.stepPairAt c2World polyNe (KDCBS.interpolatedPlan propId 1 c2Plan) j =
        none) ∧
    KDCBS.stepPairAt c2World polyNe (KDCBS.interpolatedPlan propId 1 c2Plan) 0 =
      some (0, 1) ∧
    (∃ m,
      (∀ i, i < m →
        KDCBS.contColl c2World polyNe (KDCBS.interpolatedPlan propId 1 c2Plan)
          (KDCBS.validAgentsIdx (KDCBS.interpolatedPlan propId 1 c2Plan) 0) 0 1
          (0 + 1 + i) = true) ∧
      KDCBS.contColl c2World polyNe (KDCBS.interpolatedPlan propId 1 c2Plan)
        (KDCBS.validAgentsIdx (KDCBS.interpolatedPlan propId 1 c2Plan) 0) 0 1
        (0 + 1 + m) = false ∧
      KDCBS.validatePlan c2World polyNe propId 1 c2Plan =
        KDCBS.initConflict c2World 1 (KDCBS.interpolatedPlan propId 1 c2Plan) 0 0 1 ::
          (List.range m).map (fun i =>
            KDCBS.contConflict c2World 1 (KDCBS.interpolatedPlan propId 1 c2Plan)
              (KDCBS.validAgentsIdx (KDCBS.interpolatedPlan propId 1 c2Plan) 0) 0 1
              (0 + 1 + i))) :=
  ⟨fun j hj => absurd hj (Nat.not_lt_zero j),
   by
    norm_num [KDCBS.stepPairAt, KDCBS.interpolatedPlan, KDCBS.findCollidingPair,
      KDCBS.shapesAt, KDCBS.validAgentsIdx, KDCBS.interpolate, KDCBS.interpLoop,
      footprint, polyNe, propId, c2World, c2Plan,
      List.range_succ, List.filter, List.flatMap, List.find?],
   (claim_C2 c2World polyNe propId 1 c2Plan).2 0 0 1
     (fun j hj => absurd hj (Nat.not_lt_zero j))
     (by
      norm_num [KDCBS.stepPairAt, KDCBS.interpolatedPlan, KDCBS.findCollidingPair,
        KDCBS.shapesAt, KDCBS.validAgentsIdx, KDCBS.interpolate, KDCBS.interpLoop,
        footprint, polyNe, propId, c2World, c2Plan,
        List.range_succ, List.filter, List.flatMap, List.find?])⟩

/-- Claim C6: on a path with one more state than controls (and as many
durations as controls), `KD_CBS::interpolate` rewrites each segment
`(s_i, u_i, d_i)` in place: with `steps = round(d_i / Δ)`, a segment with
`steps ≤ 1` is copied unchanged, any other segment becomes `steps`
sub-segments of duration `Δ` whose states are the re-propagation of
`(s_i, u_i)` and whose controls are copies of `u_i`; the original final
state is appended, the start state and every segment endpoint are preserved,
the state/control/duration counts stay consistent, and the trajectory never
shrinks. -/
theorem claim_C6 {υ : Type} (prop : CState → υ → CState) (res : ℚ)
    (p : PathControl υ) (h1 : p.states.length = p.controls.length + 1)
    (h2 : p.durations.length = p.controls.length) :
    (KDCBS.interpolate prop res p).states =
      ((p.states.zip (p.controls.zip p.durations)).map (fun sud =>
        if (⌊(1 : ℚ) / 2 + sud.2.2 / res⌋ : ℤ) ≤ 1 then [sud.1]
        else sud.1 :: KDCBS.propagateStates prop sud.1 sud.2.1
          ((⌊(1 : ℚ) / 2 + sud.2.2 / res⌋ : ℤ).toNat - 1))).flatten ++
      [p.states.getD p.controls.length default] ∧
    (KDCBS.interpolate prop res p).controls =
      ((p.states.zip (p.controls.zip p.durations)).map (fun sud =>
        if (⌊(1 : ℚ) / 2 + sud.2.2 / res⌋ : ℤ) ≤ 1 then [sud.2.1]
        else List.replicate (⌊(1 : ℚ) / 2 + sud.2.2 / res⌋ : ℤ).toNat
          sud.2.1)).flatten ∧
    (KDCBS.interpolate prop res p).durations =
      ((p.states.zip (p.controls.zip p.durations)).map (fun sud =>
        if (⌊(1 : ℚ) / 2 + sud.2.2 / res⌋ : ℤ) ≤ 1 then [sud.2.2]
        else List.replicate (⌊(1 : ℚ) / 2 + sud.2.2 / res⌋ : ℤ).toNat
          res)).flatten ∧
    (KDCBS.interpolate prop res p).states.head? = p.states.head? ∧
    (KDCBS.interpolate prop res p).states.getLast? = p.states.getLast? ∧
    p.controls.length ≤ (KDCBS.interpolate prop res p).controls.length ∧
    (KDCBS.interpolate prop res p).states.length =
      (KDCBS.interpolate prop res p).controls.length + 1 ∧
    (KDCBS.interpolate prop res p).durations.length =
      (KDCBS.interpolate prop res p).controls.length := by
  have hguard : ¬ p.states.length ≤ p.controls.length := by omega
  have hloop := KDCBS.interpLoop_eq prop res p.states p.controls p.durations
  have hA : (KDCBS.interpolate prop res p).states =
      ((p.states.zip (p.controls.zip p.durations)).map (fun sud =>
        if (⌊(1 : ℚ) / 2 + sud.2.2 / res⌋ : ℤ) ≤ 1 then [sud.1]
        else sud.1 :: KDCBS.propagateStates prop sud.1 sud.2.1
          ((⌊(1 : ℚ) / 2 + sud.2.2 / res⌋ : ℤ).toNat - 1))).flatten ++
      [p.states.getD p.controls.length default] := by
    simp only [KDCBS.interpolate, if_neg hguard, hloop]
  have hB : (KDCBS.interpolate prop res p).controls =
      ((p.states.zip (p.controls.zip p.durations)).map (fun sud =>
        if (⌊(1 : ℚ) / 2 + sud.2.2 / res⌋ : ℤ) ≤ 1 then [sud.2.1]
        else List.replicate (⌊(1 : ℚ) / 2 + sud.2.2 / res⌋ : ℤ).toNat
          sud.2.1)).flatten := by
    simp only [KDCBS.interpolate, if_neg hguard, hloop]
  have hC : (KDCBS.interpolate prop res p).durations =
      ((p.states.zip (p.controls.zip p.durations)).map (fun sud =>
        if (⌊(1 : ℚ) / 2 + sud.2.2 / res⌋ : ℤ) ≤ 1 then [sud.2.2]
        else List.replicate (⌊(1 : ℚ) / 2 + sud.2.2 / res⌋ : ℤ).toNat
          res)).flatten := by
    simp only [KDCBS.interpolate, if_neg hguard, hloop]
  have hseglen : (p.states.zip (p.controls.zip p.durations)).length =
      p.controls.length := by
    simp only [List.length_zip]
    omega
  have hSU : ∀ sud : CState × υ × ℚ,
      (if (⌊(1 : ℚ) / 2 + sud.2.2 / res⌋ : ℤ) ≤ 1 then [sud.1]
        else sud.1 :: KDCBS.propagateStates prop sud.1 sud.2.1
          ((⌊(1 : ℚ) / 2 + sud.2.2 / res⌋ : ℤ).toNat - 1)).length =
      (if (⌊(1 : ℚ) / 2 + sud.2.2 / res⌋ : ℤ) ≤ 1 then [sud.2.1]
        else List.replicate (⌊(1 : ℚ) / 2 + sud.2.2 / res⌋ : ℤ).toNat
          sud.2.1).length := by
    intro sud
    by_cases hs : (⌊(1 : ℚ) / 2 + sud.2.2 / res⌋ : ℤ) ≤ 1
    · rw [if_pos hs, if_pos hs]
      rfl
    · rw [if_neg hs, if_neg hs]
      simp only [List.length_cons, KDCBS.length_propagateStates,
        List.length_replicate]
      omega
  have hDU : ∀ sud : CState × υ × ℚ,
      (if (⌊(1 : ℚ) / 2 + sud.2.2 / res⌋ : ℤ) ≤ 1 then [sud.2.2]
        else List.replicate (⌊(1 : ℚ) / 2 + sud.2.2 / res⌋ : ℤ).toNat
          res).length =
      (if (⌊(1 : ℚ) / 2 + sud.2.2 / res⌋ : ℤ) ≤ 1 then [sud.2.1]
        else List.replicate (⌊(1 : ℚ) / 2 + sud.2.2 / res⌋ : ℤ).toNat
          sud.2.1).length := by
    intro sud
    by_cases hs : (⌊(1 : ℚ) / 2 + sud.2.2 / res⌋ : ℤ) ≤ 1
    · rw [if_pos hs, if_pos hs]
      rfl
    · rw [if_neg hs, if_neg hs]
      simp only [List.length_replicate]
  refine ⟨hA, hB, hC, ?_, ?_, ?_, ?_, ?_⟩
  · -- head preserved
    cases hc : p.controls with
    | nil =>
      have hs1 : p.states.length = 1 := by rw [h1, hc]; rfl
      obtain ⟨s, hs⟩ := List.length_eq_one.1 hs1
      rw [hA, hs, hc]
      simp
    | cons u us =>
      cases hs : p.states with
      | nil => rw [hs] at h1; simp at h1
      | cons s ss =>
        cases hd : p.durations with
        | nil => rw [hd, hc] at h2; simp at h2
        | cons d ds =>
          rw [hA, hs, hc, hd]
          simp only [List.zip_cons_cons, List.map_cons, List.flatten_cons]
          by_cases hstep : (⌊(1 : ℚ) / 2 + d / res⌋ : ℤ) ≤ 1
          · rw [if_pos hstep]
            simp
          · rw [if_neg hstep]
            simp
  · -- last preserved
    rw [hA, List.getLast?_concat, List.getLast?_eq_getElem?, h1]
    have hnc : p.controls.length < p.states.length := by omega
    simp only [Nat.add_sub_cancel, List.getD_eq_getElem?_getD,
      List.getElem?_eq_getElem hnc, Option.getD_some]
  · -- never shrinks
    rw [hB]
    have hne : ∀ b ∈ (p.states.zip (p.controls.zip p.durations)).map (fun sud =>
        if (⌊(1 : ℚ) / 2 + sud.2.2 / res⌋ : ℤ) ≤ 1 then [sud.2.1]
        else List.replicate (⌊(1 : ℚ) / 2 + sud.2.2 / res⌋ : ℤ).toNat
          sud.2.1), b ≠ [] := by
      intro b hb
      obtain ⟨sud, _, rfl⟩ := List.mem_map.1 hb
      by_cases hs : (⌊(1 : ℚ) / 2 + sud.2.2 / res⌋ : ℤ) ≤ 1
      · rw [if_pos hs]; simp
      · rw [if_neg hs]
        have htn : (⌊(1 : ℚ) / 2 + sud.2.2 / res⌋ : ℤ).toNat ≠ 0 := by omega
        simp only [ne_eq, List.replicate_eq_nil_iff]
        exact htn
    have := KDCBS.length_le_length_flatten _ hne
    rw [List.length_map, hseglen] at this
    exact this
  · -- state count = control count + 1
    rw [hA, hB, List.length_append, List.length_flatten, List.length_flatten]
    have : ((p.states.zip (p.controls.zip p.durations)).map (fun sud =>
        if (⌊(1 : ℚ) / 2 + sud.2.2 / res⌋ : ℤ) ≤ 1 then [sud.1]
        else sud.1 :: KDCBS.propagateStates prop sud.1 sud.2.1
          ((⌊(1 : ℚ) / 2 + sud.2.2 / res⌋ : ℤ).toNat - 1))).map List.length =
        ((p.states.zip (p.controls.zip p.durations)).map (fun sud =>
        if (⌊(1 : ℚ) / 2 + sud.2.2 / res⌋ : ℤ) ≤ 1 then [sud.2.1]
        else List.replicate (⌊(1 : ℚ) / 2 + sud.2.2 / res⌋ : ℤ).toNat
          sud.2.1)).map List.length := by
      rw [List.map_map, List.map_map]
      exact List.map_congr_left fun sud _ => hSU sud
    rw [this]
    simp
  · -- duration count = control count
    rw [hB, hC, List.length_flatten, List.length_flatten]
    have : ((p.states.zip (p.controls.zip p.durations)).map (fun sud =>
        if (⌊(1 : ℚ) / 2 + sud.2.2 / res⌋ : ℤ) ≤ 1 then [sud.2.2]
        else List.replicate (⌊(1 : ℚ) / 2 + sud.2.2 / res⌋ : ℤ).toNat
          res)).map List.length =
        ((p.states.zip (p.controls.zip p.durations)).map (fun sud =>
        if (⌊(1 : ℚ) / 2 + sud.2.2 / res⌋ : ℤ) ≤ 1 then [sud.2.1]
        else List.replicate (⌊(1 : ℚ) / 2 + sud.2.2 / res⌋ : ℤ).toNat
          sud.2.1)).map List.length := by
      rw [List.map_map, List.map_map]
      exact List.map_congr_left fun sud _ => hDU sud
    rw [this]

/-- The concrete path of the C6 witness: one unit-duration segment and one
three-step segment. -/
def c6Path : PathControl ℕ := ⟨[⟨0, 0, 1, 0⟩, ⟨3, 0, 1, 0⟩, ⟨6, 0, 1, 0⟩], [10, 20], [1, 3]⟩

/-- Witness for C6: the segment rewrite applied to `c6Path` with step 1. -/
theorem claim_C6_witness :
    c6Path.states.length = c6Path.controls.length + 1 ∧
    c6Path.durations.length = c6Path.controls.length ∧
    ((KDCBS.interpolate propId 1 c6Path).states =
      ((c6Path.states.zip (c6Path.controls.zip c6Path.durations)).map (fun sud =>
        if (⌊(1 : ℚ) / 2 + sud.2.2 / 1⌋ : ℤ) ≤ 1 then [sud.1]
        else sud.1 :: KDCBS.propagateStates propId sud.1 sud.2.1
          ((⌊(1 : ℚ) / 2 + sud.2.2 / 1⌋ : ℤ).toNat - 1))).flatten ++
      [c6Path.states.getD c6Path.controls.length default] ∧
    (KDCBS.interpolate propId 1 c6Path).controls =
      ((c6Path.states.zip (c6Path.controls.zip c6Path.durations)).map (fun sud =>
        if (⌊(1 : ℚ) / 2 + sud.2.2 / 1⌋ : ℤ) ≤ 1 then [sud.2.1]
        else List.replicate (⌊(1 : ℚ) / 2 + sud.2.2 / 1⌋ : ℤ).toNat
          sud.2.1)).flatten ∧
    (KDCBS.interpolate propId 1 c6Path).durations =
      ((c6Path.states.zip (c6Path.controls.zip c6Path.durations)).map (fun sud =>
        if (⌊(1 : ℚ) / 2 + sud.2.2 / 1⌋ : ℤ) ≤ 1 then [sud.2.2]
        else List.replicate (⌊(1 : ℚ) / 2 + sud.2.2 / 1⌋ : ℤ).toNat
          (1 : ℚ))).flatten ∧
    (KDCBS.interpolate propId 1 c6Path).states.head? = c6Path.states.head? ∧
    (KDCBS.interpolate propId 1 c6Path).states.getLast? = c6Path.states.getLast? ∧
    c6Path.controls.length ≤ (KDCBS.interpolate propId 1 c6Path).controls.length ∧
    (KDCBS.interpolate propId 1 c6Path).states.length =
      (KDCBS.interpolate propId 1 c6Path).controls.length + 1 ∧
    (KDCBS.interpolate propId 1 c6Path).durations.length =
      (KDCBS.interpolate propId 1 c6Path).controls.length) :=
  ⟨rfl, rfl, claim_C6 propId 1 c6Path rfl rfl⟩

/-- Claim C9: the collision test used by the conflict detector and the
constraint check — the negation of the kernel's disjointness — holds exactly
when the two closed polygon regions have a non-empty intersection (so a
boundary touch counts as a collision), it is symmetric, and the polygon
regions are indeed closed sets. -/
theorem claim_C9 (a b : Polygon) :
    (Geo.collides a b ↔ (Geo.polySet a ∩ Geo.polySet b).Nonempty) ∧
    (Geo.collides a b ↔ Geo.collides b a) ∧
    IsClosed (Geo.polySet a) := by
  refine ⟨?_, ?_, ?_⟩
  · unfold Geo.collides Geo.bgDisjoint
    exact Set.nonempty_iff_ne_empty.symm
  · unfold Geo.collides Geo.bgDisjoint
    rw [Set.inter_comm]
  · unfold Geo.polySet
    have hfin :
        (Set.image (fun q : ℚ × ℚ => ((q.1 : ℝ), (q.2 : ℝ))) {q | q ∈ a}).Finite :=
      (List.finite_toSet a).image _
    exact hfin.isClosed_convexHull
